import Mathlib

/-!
Verification of `add_files_to_xcode.py`: a script that registers new Swift
source files in an Xcode `project.pbxproj` document by locating three
sections of the raw text (the PBXFileReference section, the PBXBuildFile
section, and the `files = (...)` list nested in the PBXSourcesBuildPhase
record) and splicing synthesized records into them.

The document is modelled as a list of characters (`Doc`).  Each regular
expression used by the script is modelled by a dedicated executable search
function whose semantics follows Python `re` (leftmost match, greedy or
lazy sub-patterns as used at each call site).  The `\w` character class is
modelled by its ASCII fragment, which is exact for ASCII documents such as
`pbxproj` files.  `str.replace` and `re.sub` (which replace *every*
occurrence / match) are modelled by `replaceAll` and `subPhase`; the
replacement string of `re.sub` is spliced literally (Python's backslash
escape processing of the replacement is not modelled, which is exact for
every document whose matched phase text contains no backslash, as in any
real `pbxproj`).

The script's random UUID source (`generate_uuid`, line 7-9) is modelled as
an explicit supply `gen : Nat → Doc`: the k-th call of `generate_uuid`
returns `gen k`.  The hard-coded target list (lines 15-38) is surfaced as
a parameter of `runScript`, with the script's fixed list available as
`files_to_add`; `add_files_to_xcode_project` instantiates it.  Reading and
writing the project file is modelled by `Option Doc` in and the `written`
field of `RunResult` out; console prints are collected in `output`.
-/

set_option maxRecDepth 200000

set_option maxHeartbeats 4000000

namespace XcodeAdd

abbrev Doc := List Char

def sDoc (s : String) : Doc := s.toList

/-- ASCII fragment of Python's `\w` class: `[A-Za-z0-9_]`. -/
def wordChar (c : Char) : Bool :=
  (decide (65 ≤ c.toNat) && decide (c.toNat ≤ 90)) ||
  (decide (97 ≤ c.toNat) && decide (c.toNat ≤ 122)) ||
  (decide (48 ≤ c.toNat) && decide (c.toNat ≤ 57)) ||
  (c.toNat == 95)

/-- True iff `pat` occurs somewhere in the document (Python's `pat in content`). -/
def occursIn (pat : Doc) : Doc → Bool
  | [] => pat.isEmpty
  | c :: tl => pat.isPrefixOf (c :: tl) || occursIn pat tl

/-- Split at the first occurrence of `pat`: `splitFirst pat d = some (a, b)`
means `d = a ++ pat ++ b` and the occurrence is leftmost. -/
def splitFirst (pat : Doc) : Doc → Option (Doc × Doc)
  | [] => if pat.isEmpty then some ([], []) else none
  | c :: tl =>
    if pat.isPrefixOf (c :: tl) then some ([], (c :: tl).drop pat.length)
    else
      match splitFirst pat tl with
      | some r => some (c :: r.1, r.2)
      | none => none

/-- Split at the last occurrence of `pat` (used for the greedy `[^}]*`
before `files = (`). -/
def splitLast (pat : Doc) : Doc → Option (Doc × Doc)
  | [] => if pat.isEmpty then some ([], []) else none
  | c :: tl =>
    match splitLast pat tl with
    | some r => some (c :: r.1, r.2)
    | none =>
      if pat.isPrefixOf (c :: tl) then some ([], (c :: tl).drop pat.length) else none

/-- Python `str.replace`: replace every (leftmost-first, non-overlapping)
occurrence of `old` by `new`.  The script only ever calls it with a
non-empty `old` (a whole marker-delimited section).  Structured with a
fuel argument so that the recursion is structural; `fuel = d.length`
always suffices because every step consumes at least one character. -/
def replaceAllGo (old new : Doc) : Nat → Doc → Doc
  | _, [] => []
  | 0, d => d
  | fuel + 1, c :: tl =>
    if !old.isEmpty && old.isPrefixOf (c :: tl) then
      new ++ replaceAllGo old new fuel ((c :: tl).drop old.length)
    else
      c :: replaceAllGo old new fuel tl

def replaceAll (old new d : Doc) : Doc := replaceAllGo old new d.length d

def kEqBrace : Doc := sDoc " = \x7b"
def kIsaGroup : Doc := sDoc "isa = PBXGroup;"
def kNameMain : Doc := sDoc "name = TransactionsTestTask;"
def kIsaSources : Doc := sDoc "isa = PBXSourcesBuildPhase;"
def kFilesOpen : Doc := sDoc "files = ("

/-- The maximal brace-free prefix, the region a `[^}]*` sub-pattern can
range over. -/
def braceFree (d : Doc) : Doc := d.takeWhile (fun c => c ≠ '\x7d')

/-- The regex `(\w{24}) = \{[^}]*isa = PBXGroup;[^}]*name =
TransactionsTestTask;` (line 51) matches at the head of `d`.  Both
literals contain no `}`, so a match exists exactly when they occur, in
order, inside the brace-free region after `" = {"`. -/
def matchGroupAt (d : Doc) : Bool :=
  decide ((d.take 24).length = 24) && (d.take 24).all wordChar &&
  kEqBrace.isPrefixOf (d.drop 24) &&
  (match splitFirst kIsaGroup (braceFree (d.drop 28)) with
   | some r => occursIn kNameMain r.2
   | none => false)

/-- Models `re.search` for the main-group pattern: leftmost match, returning the
captured 24-character identifier (line 51-55). -/
def findMainGroup : Doc → Option Doc
  | [] => none
  | c :: tl => if matchGroupAt (c :: tl) then some ((c :: tl).take 24) else findMainGroup tl

/-- The regex `(\w{24}) = \{[^}]*isa = PBXSourcesBuildPhase;` (line 57)
matches at the head of `d`. -/
def matchSourcesAt (d : Doc) : Bool :=
  decide ((d.take 24).length = 24) && (d.take 24).all wordChar &&
  kEqBrace.isPrefixOf (d.drop 24) &&
  occursIn kIsaSources (braceFree (d.drop 28))

/-- Models `re.search` for the sources-build-phase pattern: leftmost match,
returning the captured identifier (line 57-61). -/
def findSourcesPhase : Doc → Option Doc
  | [] => none
  | c :: tl => if matchSourcesAt (c :: tl) then some ((c :: tl).take 24) else findSourcesPhase tl

/-- Models the search `(begin.*?)end` with DOTALL for a marker pair
(lines 83 and 95): leftmost begin marker, then the first end marker after
it.  Returns `(before, interior, after)` with
`content = before ++ bM ++ interior ++ eM ++ after`. -/
def findSection (bM eM : Doc) (d : Doc) : Option (Doc × Doc × Doc) :=
  match splitFirst bM d with
  | none => none
  | some (a, rest) =>
    match splitFirst eM rest with
    | none => none
    | some (m, b) => some (a, m, b)

/-- Matches `[^}]*files = \([^)]*` at the head of `r` (the tail of the
pattern built at line 108): the greedy `[^}]*` reaches the *last*
`files = (` inside the brace-free region, then `[^)]*` extends to just
before the next `)`.  Returns the matched text. -/
def phaseTailMatch (r : Doc) : Option Doc :=
  match splitLast kFilesOpen (braceFree r) with
  | none => none
  | some w =>
    some (w.1 ++ kFilesOpen ++ ((r.drop (w.1 ++ kFilesOpen).length).takeWhile (fun c => c ≠ ')')))

/-- Models the search for the pattern of line
108-109: leftmost position where the full pattern matches.  Returns
`(before, match, after)` with `d = before ++ match ++ after`. -/
def findPhaseMatch (pid : Doc) : Doc → Option (Doc × Doc × Doc)
  | [] => none
  | c :: tl =>
    match (if (pid ++ kEqBrace).isPrefixOf (c :: tl) then
             phaseTailMatch ((c :: tl).drop (pid ++ kEqBrace).length)
           else none) with
    | some t => some ([], pid ++ kEqBrace ++ t, (c :: tl).drop (pid ++ kEqBrace ++ t).length)
    | none =>
      match findPhaseMatch pid tl with
      | some r => some (c :: r.1, r.2.1, r.2.2)
      | none => none

/-- Models the substitution of line 118: replace
every non-overlapping match, left to right.  Fuelled by `d.length`; every
match contains the 24-character identifier, so the fuel is sufficient. -/
def subPhaseGo (pid repl : Doc) : Nat → Doc → Doc
  | 0, d => d
  | fuel + 1, d =>
    match findPhaseMatch pid d with
    | none => d
    | some r => r.1 ++ repl ++ subPhaseGo pid repl fuel r.2.2

def subPhase (pid repl d : Doc) : Doc := subPhaseGo pid repl d.length d

/-- Split on a separator character; used for `os.path.basename` (split on
`/`, last component) and for counting phase-list entries. -/
def splitSep (sep : Char) : Doc → List Doc
  | [] => [[]]
  | c :: tl =>
    if c = sep then [] :: splitSep sep tl
    else
      match splitSep sep tl with
      | [] => [[c]]
      | h :: t => (c :: h) :: t

/-- Models `os.path.basename` for the forward-slash paths the script uses. -/
def basename (p : Doc) : Doc := (splitSep '/' p).getLastD []

def kBeginRef : Doc := sDoc "/* Begin PBXFileReference section */"
def kEndRef : Doc := sDoc "/* End PBXFileReference section */"
def kBeginBuild : Doc := sDoc "/* Begin PBXBuildFile section */"
def kEndBuild : Doc := sDoc "/* End PBXBuildFile section */"

/-- One queued file: its path and the two identifiers generated for it
(`file_refs[path]` and `build_files[path]`). -/
structure NewFile where
  path : Doc
  refId : Doc
  buildId : Doc
deriving DecidableEq, Repr

/-- The PBXFileReference record synthesized at line 89. -/
def fileRefEntry (path refId : Doc) : Doc :=
  sDoc "\t\t" ++ refId ++ sDoc " /* " ++ basename path ++
  sDoc " */ = \x7bisa = PBXFileReference; lastKnownFileType = sourcecode.swift; path = " ++
  basename path ++ sDoc "; sourceTree = \"<group>\"; \x7d;\n"

/-- The PBXBuildFile record synthesized at line 102. -/
def buildFileEntry (path buildId refId : Doc) : Doc :=
  sDoc "\t\t" ++ buildId ++ sDoc " /* " ++ basename path ++
  sDoc " in Sources */ = \x7bisa = PBXBuildFile; fileRef = " ++ refId ++
  sDoc " /* " ++ basename path ++ sDoc " */; \x7d;\n"

/-- The phase-membership line synthesized at line 115. -/
def sourcesEntry (path buildId : Doc) : Doc :=
  sDoc "\t\t\t\t" ++ buildId ++ sDoc " /* " ++ basename path ++ sDoc " in Sources */,\n"

def refBlock (nf : List NewFile) : Doc :=
  (nf.map (fun e => fileRefEntry e.path e.refId)).flatten

def buildBlock (nf : List NewFile) : Doc :=
  (nf.map (fun e => buildFileEntry e.path e.buildId e.refId)).flatten

def memBlock (nf : List NewFile) : Doc :=
  (nf.map (fun e => sourcesEntry e.path e.buildId)).flatten

/-- Lines 83-92: if the PBXFileReference section is found, append all new
file-reference records before its end marker, replacing every occurrence
of the old section text; otherwise do nothing (and print nothing). -/
def patchFileRefs (nf : List NewFile) (content : Doc) : Doc :=
  match findSection kBeginRef kEndRef content with
  | none => content
  | some s =>
    replaceAll (kBeginRef ++ s.2.1 ++ kEndRef) (kBeginRef ++ s.2.1 ++ refBlock nf ++ kEndRef) content

/-- Lines 95-105: same for the PBXBuildFile section. -/
def patchBuildFiles (nf : List NewFile) (content : Doc) : Doc :=
  match findSection kBeginBuild kEndBuild content with
  | none => content
  | some s =>
    replaceAll (kBeginBuild ++ s.2.1 ++ kEndBuild) (kBeginBuild ++ s.2.1 ++ buildBlock nf ++ kEndBuild) content

/-- Lines 107-118: if the phase's nested `files = (` list is found, append
the membership lines to the matched text and substitute it for every
match; otherwise do nothing (and print nothing). -/
def patchSourcesPhase (pid : Doc) (nf : List NewFile) (content : Doc) : Doc :=
  match findPhaseMatch pid content with
  | none => content
  | some r => subPhase pid (r.2.1 ++ memBlock nf) content

def msgErrNotFound : Doc := sDoc "Error: TransactionsTestTask.xcodeproj/project.pbxproj not found"
def msgErrGroup : Doc := sDoc "Error: Could not find main group"
def msgErrPhase : Doc := sDoc "Error: Could not find sources build phase"
def msgAlready (p : Doc) : Doc := sDoc "File " ++ p ++ sDoc " already exists in project"
def msgAllExist : Doc := sDoc "All files already exist in project"
def msgAdded (n : Nat) : Doc := sDoc "Added " ++ (Nat.repr n).toList ++ sDoc " files to Xcode project"
def msgAddedFile (p : Doc) : Doc := sDoc "  - " ++ p

/-- Python-dict insert-or-update: a repeated key keeps its original
position and takes the new value (both dicts are updated together, so one
association list carries both identifiers). -/
def upsert : List NewFile → Doc → Doc → Doc → List NewFile
  | [], p, r, b => [⟨p, r, b⟩]
  | e :: t, p, r, b => if e.path = p then ⟨p, r, b⟩ :: t else e :: upsert t p r b

/-- Lines 67-76: for each candidate path, if it occurs verbatim in the
document print the skip message, otherwise generate two identifiers
(`gen n`, `gen (n+1)`) and queue the file.  Returns the queued files in
insertion order, the skip messages in print order, and the next counter
value of the identifier supply. -/
def collectNew (gen : Nat → Doc) (content : Doc) :
    List Doc → Nat → List NewFile → List NewFile × List Doc × Nat
  | [], n, acc => (acc, [], n)
  | p :: ps, n, acc =>
    if occursIn p content then
      match collectNew gen content ps n acc with
      | (es, ms, k) => (es, msgAlready p :: ms, k)
    else
      collectNew gen content ps (n + 2) (upsert acc p (gen n) (gen (n + 1)))

/-- Outcome of one run: the document written back (if any) and the console
lines, in order. -/
structure RunResult where
  written : Option Doc
  output : List Doc
deriving DecidableEq, Repr

/-- Lines 57-126, after the main-group gate has passed: locate the sources
build phase, queue absent files, and either stop (nothing to add) or patch
the three sections, write the result, and report the queued files.  This
continuation never consults the captured main-group identifier. -/
def afterGroupGate (gen : Nat → Doc) (targets : List Doc) (content : Doc) : RunResult :=
  match findSourcesPhase content with
  | none => ⟨none, [msgErrPhase]⟩
  | some pid =>
    match collectNew gen content targets 0 [] with
    | (nf, skips, _) =>
      if nf = [] then ⟨none, skips ++ [msgAllExist]⟩
      else
        ⟨some (patchSourcesPhase pid nf (patchBuildFiles nf (patchFileRefs nf content))),
         skips ++ [msgAdded nf.length] ++ nf.map (fun e => msgAddedFile e.path)⟩

/-- The whole script body (lines 11-126), with the target list surfaced as
a parameter (spec section 6 allows this) and the file contents passed as
`Option Doc` (`none` models a missing project file). -/
def runScript (gen : Nat → Doc) (targets : List Doc) (file : Option Doc) : RunResult :=
  match file with
  | none => ⟨none, [msgErrNotFound]⟩
  | some content =>
    match findMainGroup content with
    | none => ⟨none, [msgErrGroup]⟩
    | some _ => afterGroupGate gen targets content

/-- The fixed target list of lines 15-38. -/
def files_to_add : List Doc :=
  [sDoc "TransactionsTestTask/Core/Logging/BitcoinRateLogger.swift",
   sDoc "TransactionsTestTask/Domain/UseCases/AddTransactionUseCase.swift",
   sDoc "TransactionsTestTask/Domain/UseCases/UpdateBitcoinRateUseCase.swift",
   sDoc "TransactionsTestTask/Domain/UseCases/FetchTransactionsUseCase.swift",
   sDoc "TransactionsTestTask/Presentation/ViewModels/AddTransactionViewModel.swift",
   sDoc "TransactionsTestTask/Presentation/ViewModels/DashboardViewModel.swift",
   sDoc "TransactionsTestTask/Presentation/Views/Dashboard/DashboardViewController.swift",
   sDoc "TransactionsTestTask/Presentation/Views/Dashboard/DashboardHeaderView.swift",
   sDoc "TransactionsTestTask/Presentation/Views/Dashboard/TransactionListView.swift",
   sDoc "TransactionsTestTask/Presentation/Views/Common/LoadMoreTableViewCell.swift",
   sDoc "TransactionsTestTask/Presentation/Views/Common/TransactionTableViewCell.swift",
   sDoc "TransactionsTestTask/Presentation/Views/AddTransaction/AddTransactionViewController.swift",
   sDoc "TransactionsTestTask/Core/Coordinator/AppCoordinator.swift"]

/-- The function `add_files_to_xcode_project` as in the script: the fixed target list,
one identifier supply, one file in, one result out. -/
def add_files_to_xcode_project (gen : Nat → Doc) (file : Option Doc) : RunResult :=
  runScript gen files_to_add file

/-! ### Auxiliary notions used by the theorems -/

/-- Insert `ins` at position `i` of `d` (all original characters kept). -/
def insertAt (d : Doc) (i : Nat) (ins : Doc) : Doc := d.take i ++ ins ++ d.drop i

/-- Number of positions of `d` at which `s` occurs (occurrences at distinct
positions are all counted). -/
def occCount (s : Doc) : Doc → Nat
  | [] => if s.isEmpty then 1 else 0
  | c :: tl => (if s.isPrefixOf (c :: tl) then 1 else 0) + occCount s tl

/-- Holds (`noOcc s a b = true`) iff no occurrence of `s` starts inside `a` when
`a` is followed by `b` (the occurrence may extend into `b`). -/
def noOcc (s : Doc) : Doc → Doc → Bool
  | [], _ => true
  | c :: tl, b => !(s.isPrefixOf ((c :: tl) ++ b)) && noOcc s tl b

/-- States that `s` occurs exactly at the junction of `p ++ s ++ q` and nowhere else:
no occurrence starts in `p`, none starts properly inside `s`, and none
lies in `q`. -/
abbrev uniquePlace (s p q : Doc) : Prop :=
  noOcc s p (s ++ q) = true ∧ noOcc s s.tail q = true ∧ occursIn s q = false

/-! ### Concrete documents and identifier supplies used by the witnesses
and counterexamples -/

def digitCh (n : Nat) : Char := Char.ofNat (48 + n % 10)

/-- A deterministic identifier supply (24 word characters each, pairwise
distinct for the first hundred indices). -/
def genA (n : Nat) : Doc := sDoc "AAAAAAAAAAAAAAAAAAAAAA" ++ [digitCh (n / 10), digitCh n]

/-- A second supply, disjoint from `genA`, standing for the fresh UUIDs of
a second run. -/
def genB (n : Nat) : Doc := sDoc "BBBBBBBBBBBBBBBBBBBBBB" ++ [digitCh (n / 10), digitCh n]

/-- A main-group record (24-character identifier, `isa = PBXGroup;`,
`name = TransactionsTestTask;`). -/
def docA : Doc := sDoc "GROUPIDAAAAAAAAAAAAAAAAA = \x7bisa = PBXGroup; name = TransactionsTestTask; \x7d;\n"

/-- The sources-build-phase identifier of the example documents. -/
def docPid : Doc := sDoc "PHASEIDBBBBBBBBBBBBBBBBB"

def docMB : Doc := sDoc "\n"
def docC : Doc := sDoc "\n"
def docMR : Doc := sDoc "\n"
def docE : Doc := sDoc "\n"
def docW : Doc := sDoc "\n\t\t\tisa = PBXSourcesBuildPhase;\n\t\t\t"
def docL : Doc := sDoc "\n\t\t\t\tOLDBUILDID /* Old.swift in Sources */,\n\t\t\t"
def docF : Doc := sDoc ");\n\x7d;\n"

/-- A minimal well-formed project document: group record, empty
PBXBuildFile and PBXFileReference sections, and a sources build phase
whose `files` list holds one entry. -/
def doc0 : Doc :=
  docA ++ kBeginBuild ++ docMB ++ kEndBuild ++ docC ++
  kBeginRef ++ docMR ++ kEndRef ++ docE ++
  docPid ++ kEqBrace ++ docW ++ kFilesOpen ++ docL ++ docF

/-- Like `doc0` but the phase record has no `files = (` list, so the
pattern of line 108 cannot match although the gate of line 57 passes. -/
def docBadPhase : Doc :=
  docA ++ kBeginBuild ++ docMB ++ kEndBuild ++ docC ++
  kBeginRef ++ docMR ++ kEndRef ++ docE ++
  docPid ++ kEqBrace ++ sDoc "isa = PBXSourcesBuildPhase; \x7d;\n"

/-- Like `doc0` but without the PBXFileReference marker pair. -/
def docNoRef : Doc :=
  docA ++ kBeginBuild ++ docMB ++ kEndBuild ++ docC ++ docE ++
  docPid ++ kEqBrace ++ docW ++ kFilesOpen ++ docL ++ docF

/-- A document in which the PBXFileReference marker pair (with identical
interior) occurs twice; the build-file marker pair is absent. -/
def docDup : Doc :=
  docA ++ kBeginRef ++ docMR ++ kEndRef ++ docC ++
  kBeginRef ++ docMR ++ kEndRef ++ docE ++
  docPid ++ kEqBrace ++ docW ++ kFilesOpen ++ docL ++ docF

/-- Target paths used by witnesses: absent ones, and one (`pOld`) whose
text occurs in `doc0`. -/
def pNew : Doc := sDoc "Sources/New.swift"
def pNew2 : Doc := sDoc "Sources/Other.swift"
def pOld : Doc := sDoc "Old.swift"

/-- One path of the script's fixed list. -/
def pCoord : Doc := sDoc "TransactionsTestTask/Core/Coordinator/AppCoordinator.swift"

/-- The document written by a first run of the script on `doc0` with the
single target `pCoord`. -/
def doc1 : Doc := (runScript genA [pCoord] (some doc0)).written.getD []

/-- Text preceding the main-group identifier in the two documents of the
`C10` counterexample: it ends with `pCoord` minus its final `swift`. -/
def docPreTen : Doc := sDoc "path = TransactionsTestTask/Core/Coordinator/AppCoordinator."

/-- A 24-character identifier beginning with `swift`: placed after
`docPreTen` it completes an occurrence of `pCoord`. -/
def idSwift : Doc := sDoc "swiftAAAAAAAAAAAAAAAAAAA"

/-- A 24-character identifier that completes no occurrence of `pCoord`. -/
def idPlain : Doc := sDoc "AAAAAAAAAAAAAAAAAAAAAAAA"

/-- Text following the main-group identifier in the `C10` documents: the
rest of the group record and a minimal sources-build-phase record. -/
def docPostTen : Doc :=
  kEqBrace ++ sDoc "isa = PBXGroup; name = TransactionsTestTask; \x7d;\n" ++
  docPid ++ kEqBrace ++ sDoc "isa = PBXSourcesBuildPhase; \x7d;\n"

/-- The two `C10` documents: identical except for the 24 characters of the
captured main-group identifier. -/
def docTenA : Doc := docPreTen ++ idSwift ++ docPostTen

def docTenB : Doc := docPreTen ++ idPlain ++ docPostTen

/-- A document without any main-group record. -/
def docNoGroup : Doc := sDoc "nothing to see here\n"

/-- Prepend `x` to the first chunk of a chunk list (used to describe how
`splitSep` acts on a concatenation). -/
def consHead (x : Doc) : List Doc → List Doc
  | [] => [x]
  | h :: t => (x ++ h) :: t

end XcodeAdd

namespace XcodeAdd

/-- The single-file queue of several witnesses. -/
def nfW1 : List NewFile := [⟨pNew, genA 0, genA 1⟩]

/-- The two-file queue of the conservation and ordering witnesses. -/
def nfW2 : List NewFile := [⟨pNew, genA 0, genA 1⟩, ⟨pNew2, genA 2, genA 3⟩]

/-- Prefix of `doc0` up to the PBXFileReference begin marker. -/
def wA1 : Doc := docA ++ kBeginBuild ++ docMB ++ kEndBuild ++ docC

/-- Suffix of `doc0` after the PBXFileReference end marker. -/
def wB1 : Doc := docE ++ docPid ++ kEqBrace ++ docW ++ kFilesOpen ++ docL ++ docF

/-- The text before the phase match after both section patches with the
single-file queue. -/
def wPre3 : Doc :=
  docA ++ kBeginBuild ++ docMB ++ buildBlock nfW1 ++ kEndBuild ++ docC ++
  kBeginRef ++ docMR ++ refBlock nfW1 ++ kEndRef ++ docE

/-- Like `wPre3` but for the two-file queue `nfW2`. -/
def wPre3b : Doc :=
  docA ++ kBeginBuild ++ docMB ++ buildBlock nfW2 ++ kEndBuild ++ docC ++
  kBeginRef ++ docMR ++ refBlock nfW2 ++ kEndRef ++ docE

/-- The text the phase pattern matches in `doc0`-derived documents. -/
def wM3 : Doc := docPid ++ kEqBrace ++ docW ++ kFilesOpen ++ docL

end XcodeAdd

/-! ## Basic lemmas about the string primitives -/

namespace XcodeAdd

theorem prefix_eq_append {pat d : Doc} (h : pat.isPrefixOf d = true) :
    d = pat ++ d.drop pat.length := by
  obtain ⟨t, ht⟩ := List.isPrefixOf_iff_prefix.mp h
  subst ht
  rw [List.drop_left]

theorem splitFirst_sound {pat : Doc} : ∀ {d a b : Doc},
    splitFirst pat d = some (a, b) → d = a ++ pat ++ b := by
  intro d
  induction d with
  | nil =>
    intro a b h
    simp only [splitFirst] at h
    split at h
    · next hemp =>
      have hpat : pat = [] := by simpa [List.isEmpty_iff] using hemp
      obtain ⟨rfl, rfl⟩ : a = [] ∧ b = [] := by
        constructor <;> · injection h with h2; injection h2 <;> simp_all
      simp [hpat]
    · exact absurd h (by simp)
  | cons c tl ih =>
    intro a b h
    simp only [splitFirst] at h
    by_cases hp : pat.isPrefixOf (c :: tl) = true
    · rw [if_pos hp] at h
      obtain ⟨rfl, rfl⟩ : a = [] ∧ b = (c :: tl).drop pat.length := by
        constructor <;> · injection h with h2; injection h2 <;> simp_all
      simpa using prefix_eq_append hp
    · rw [if_neg hp] at h
      cases hsf : splitFirst pat tl with
      | none => rw [hsf] at h; exact absurd h (by simp)
      | some r =>
        rw [hsf] at h
        obtain ⟨rfl, rfl⟩ : a = c :: r.1 ∧ b = r.2 := by
          constructor <;> · injection h with h2; injection h2 <;> simp_all
        have htl := ih (a := r.1) (b := r.2) (by simpa using hsf)
        simp [htl]

theorem splitLast_sound {pat : Doc} : ∀ {d a b : Doc},
    splitLast pat d = some (a, b) → d = a ++ pat ++ b := by
  intro d
  induction d with
  | nil =>
    intro a b h
    simp only [splitLast] at h
    split at h
    · next hemp =>
      have hpat : pat = [] := by simpa [List.isEmpty_iff] using hemp
      obtain ⟨rfl, rfl⟩ : a = [] ∧ b = [] := by
        constructor <;> · injection h with h2; injection h2 <;> simp_all
      simp [hpat]
    · exact absurd h (by simp)
  | cons c tl ih =>
    intro a b h
    simp only [splitLast] at h
    cases hsl : splitLast pat tl with
    | some r =>
      rw [hsl] at h
      obtain ⟨rfl, rfl⟩ : a = c :: r.1 ∧ b = r.2 := by
        constructor <;> · injection h with h2; injection h2 <;> simp_all
      have htl := ih (a := r.1) (b := r.2) (by simpa using hsl)
      simp [htl]
    | none =>
      rw [hsl] at h
      by_cases hp : pat.isPrefixOf (c :: tl) = true
      · rw [if_pos hp] at h
        obtain ⟨rfl, rfl⟩ : a = [] ∧ b = (c :: tl).drop pat.length := by
          constructor <;> · injection h with h2; injection h2 <;> simp_all
        simpa using prefix_eq_append hp
      · rw [if_neg hp] at h
        exact absurd h (by simp)

end XcodeAdd

namespace XcodeAdd

theorem replaceAllGo_not_occ {old : Doc} (new : Doc) : ∀ {d : Doc},
    occursIn old d = false → ∀ fuel, replaceAllGo old new fuel d = d := by
  intro d
  induction d with
  | nil => intro _ fuel; cases fuel <;> rfl
  | cons c tl ih =>
    intro h fuel
    simp only [occursIn, Bool.or_eq_false_iff] at h
    cases fuel with
    | zero => rfl
    | succ f =>
      simp only [replaceAllGo]
      rw [if_neg (by simp [h.1]), ih h.2 f]

theorem replaceAll_not_occ {old : Doc} (new : Doc) {d : Doc}
    (h : occursIn old d = false) : replaceAll old new d = d :=
  replaceAllGo_not_occ new h _

theorem replaceAllGo_fuel {old new : Doc} :
    ∀ fuel d, d.length ≤ fuel →
      replaceAllGo old new fuel d = replaceAllGo old new d.length d := by
  intro fuel
  induction fuel using Nat.strong_induction_on with
  | _ fuel ih =>
    intro d hd
    match fuel, d with
    | fuel, [] => cases fuel <;> rfl
    | 0, c :: tl => simp at hd
    | f + 1, c :: tl =>
      simp only [List.length_cons] at hd ⊢
      simp only [replaceAllGo]
      by_cases hc : (!old.isEmpty && old.isPrefixOf (c :: tl)) = true
      · rw [if_pos hc, if_pos hc]
        have hol : 0 < old.length := by
          rcases old with _ | ⟨x, xs⟩ <;> simp_all
        have hdl : ((c :: tl).drop old.length).length ≤ f := by
          simp only [List.length_drop, List.length_cons]; omega
        have hdl2 : ((c :: tl).drop old.length).length ≤ tl.length := by
          simp only [List.length_drop, List.length_cons]; omega
        rw [ih f (by omega) _ hdl, ih tl.length (by omega) _ hdl2]
      · rw [if_neg hc, if_neg hc]
        rw [ih f (by omega) tl (by omega), ih tl.length (by omega) tl le_rfl]

theorem replaceAllGo_eq_replaceAll {old new : Doc} {fuel : Nat} {d : Doc}
    (h : d.length ≤ fuel) : replaceAllGo old new fuel d = replaceAll old new d :=
  replaceAllGo_fuel fuel d h

theorem replaceAll_first {old new : Doc} (hne : old ≠ []) :
    ∀ {d a b : Doc}, splitFirst old d = some (a, b) →
      replaceAll old new d = a ++ new ++ replaceAll old new b := by
  intro d
  induction d with
  | nil =>
    intro a b h
    simp [splitFirst, List.isEmpty_iff, hne] at h
  | cons c tl ih =>
    intro a b h
    simp only [splitFirst] at h
    by_cases hp : old.isPrefixOf (c :: tl) = true
    · rw [if_pos hp] at h
      obtain ⟨rfl, rfl⟩ : a = [] ∧ b = (c :: tl).drop old.length := by
        constructor <;> · injection h with h2; injection h2 <;> simp_all
      show replaceAllGo old new (c :: tl).length (c :: tl) = _
      simp only [List.length_cons, replaceAllGo]
      rw [if_pos (by simp [hp, List.isEmpty_iff, hne])]
      have hol : 0 < old.length := List.length_pos.mpr hne
      rw [replaceAllGo_eq_replaceAll
        (by simp only [List.length_drop, List.length_cons]; omega)]
      simp
    · rw [if_neg hp] at h
      cases hsf : splitFirst old tl with
      | none => rw [hsf] at h; exact absurd h (by simp)
      | some r =>
        rw [hsf] at h
        obtain ⟨rfl, rfl⟩ : a = c :: r.1 ∧ b = r.2 := by
          constructor <;> · injection h with h2; injection h2 <;> simp_all
        show replaceAllGo old new (c :: tl).length (c :: tl) = _
        simp only [List.length_cons, replaceAllGo]
        rw [if_neg (by simp [hp])]
        rw [replaceAllGo_eq_replaceAll le_rfl]
        rw [ih (by simpa using hsf)]
        simp

theorem replaceAll_unique {old new : Doc} {d a b : Doc} (hne : old ≠ [])
    (h : splitFirst old d = some (a, b)) (hb : occursIn old b = false) :
    replaceAll old new d = a ++ new ++ b := by
  rw [replaceAll_first hne h, replaceAll_not_occ new hb]

theorem occCount_append_of_noOcc {s : Doc} : ∀ {a b : Doc}, noOcc s a b = true →
    occCount s (a ++ b) = occCount s b := by
  intro a
  induction a with
  | nil => intro b _; rfl
  | cons c tl ih =>
    intro b h
    simp only [noOcc, List.cons_append, Bool.and_eq_true, Bool.not_eq_eq_eq_not,
      Bool.not_true] at h
    simp only [List.cons_append, occCount, List.append_eq]
    rw [if_neg (by simp [h.1]), ih h.2]
    simp

theorem occCount_zero {s : Doc} : ∀ {d : Doc}, occursIn s d = false → occCount s d = 0 := by
  intro d
  induction d with
  | nil =>
    intro h
    simp only [occursIn] at h
    simp [occCount, h]
  | cons c tl ih =>
    intro h
    simp only [occursIn, Bool.or_eq_false_iff] at h
    simp only [occCount]
    rw [if_neg (by simp [h.1]), ih h.2]

theorem occCount_unique {s p q : Doc} (hne : s ≠ [])
    (h1 : noOcc s p (s ++ q) = true) (h2 : noOcc s s.tail q = true)
    (h3 : occursIn s q = false) :
    occCount s (p ++ s ++ q) = 1 := by
  rw [List.append_assoc, occCount_append_of_noOcc h1]
  rcases s with _ | ⟨c, t⟩
  · exact absurd rfl hne
  · simp only [List.cons_append, occCount, List.append_eq]
    rw [if_pos (List.isPrefixOf_iff_prefix.mpr ⟨q, by simp⟩)]
    have ht : noOcc (c :: t) t q = true := h2
    rw [occCount_append_of_noOcc ht, occCount_zero h3]

theorem occCount_one_of_uniquePlace {s p q : Doc} (hne : s ≠ [])
    (h : uniquePlace s p q) : occCount s (p ++ s ++ q) = 1 :=
  occCount_unique hne h.1 h.2.1 h.2.2

end XcodeAdd

namespace XcodeAdd

theorem findSection_sound {bM eM d a m b : Doc}
    (h : findSection bM eM d = some (a, m, b)) :
    d = a ++ bM ++ m ++ eM ++ b := by
  unfold findSection at h
  split at h
  · exact absurd h (by simp)
  · rename_i a2 rest h1
    split at h
    · exact absurd h (by simp)
    · rename_i m2 b2 h2
      simp only [Option.some.injEq, Prod.mk.injEq] at h
      obtain ⟨rfl, rfl, rfl⟩ := h
      rw [splitFirst_sound h1, splitFirst_sound h2]
      simp

theorem phaseTailMatch_prefix {r t : Doc} (h : phaseTailMatch r = some t) :
    t <+: r := by
  unfold phaseTailMatch at h
  cases hsl : splitLast kFilesOpen (braceFree r) with
  | none => rw [hsl] at h; exact absurd h (by simp)
  | some w =>
    rw [hsl] at h
    have ht : t = w.1 ++ kFilesOpen ++
        ((r.drop (w.1 ++ kFilesOpen).length).takeWhile (fun c => c ≠ ')')) := by
      injection h with h2; exact h2.symm
    have hbf : braceFree r = w.1 ++ kFilesOpen ++ w.2 :=
      splitLast_sound (show splitLast kFilesOpen (braceFree r) = some (w.1, w.2) by rw [hsl])
    have hpre1 : (w.1 ++ kFilesOpen) <+: r := by
      have h1 : (w.1 ++ kFilesOpen) <+: braceFree r := by
        rw [hbf]; exact ⟨w.2, by simp⟩
      exact h1.trans (List.takeWhile_prefix _)
    have hr : r = (w.1 ++ kFilesOpen) ++ r.drop (w.1 ++ kFilesOpen).length := by
      exact prefix_eq_append (List.isPrefixOf_iff_prefix.mpr hpre1)
    obtain ⟨s2, hs2⟩ := List.takeWhile_prefix
      (l := r.drop (w.1 ++ kFilesOpen).length) (fun c => c ≠ ')')
    refine ⟨s2, ?_⟩
    rw [ht]
    conv_rhs => rw [hr, ← hs2]
    simp [List.append_assoc]

theorem findPhaseMatch_sound {pid : Doc} : ∀ {d pre m post : Doc},
    findPhaseMatch pid d = some (pre, m, post) → d = pre ++ m ++ post := by
  intro d
  induction d with
  | nil => intro pre m post h; exact absurd h (by simp [findPhaseMatch])
  | cons c tl ih =>
    intro pre m post h
    simp only [findPhaseMatch] at h
    by_cases hp : (pid ++ kEqBrace).isPrefixOf (c :: tl) = true
    · rw [if_pos hp] at h
      cases hpt : phaseTailMatch ((c :: tl).drop (pid ++ kEqBrace).length) with
      | some t =>
        rw [hpt] at h
        obtain ⟨rfl, rfl, rfl⟩ :
            pre = [] ∧ m = pid ++ kEqBrace ++ t ∧
              post = (c :: tl).drop (pid ++ kEqBrace ++ t).length := by
          refine ⟨?_, ?_, ?_⟩
          · injection h with h2; injection h2 <;> simp_all
          · injection h with h2; injection h2 with h3 h4; injection h4 <;> simp_all
          · injection h with h2; injection h2 with h3 h4; injection h4 <;> simp_all
        have hpre : (pid ++ kEqBrace ++ t) <+: (c :: tl) := by
          have h1 : c :: tl = (pid ++ kEqBrace) ++ (c :: tl).drop (pid ++ kEqBrace).length :=
            prefix_eq_append hp
          have h2 : t <+: (c :: tl).drop (pid ++ kEqBrace).length :=
            phaseTailMatch_prefix (by rw [hpt])
        
          obtain ⟨s2, hs2⟩ := h2
          refine ⟨s2, ?_⟩
          conv_rhs => rw [h1, ← hs2]
          simp [List.append_assoc]
        simpa using prefix_eq_append (List.isPrefixOf_iff_prefix.mpr hpre)
      | none =>
        rw [hpt] at h
        cases hfm : findPhaseMatch pid tl with
        | none => rw [hfm] at h; exact absurd h (by simp)
        | some r =>
          rw [hfm] at h
          obtain ⟨rfl, rfl, rfl⟩ : pre = c :: r.1 ∧ m = r.2.1 ∧ post = r.2.2 := by
            refine ⟨?_, ?_, ?_⟩
            · injection h with h2; injection h2 <;> simp_all
            · injection h with h2; injection h2 with h3 h4; injection h4 <;> simp_all
            · injection h with h2; injection h2 with h3 h4; injection h4 <;> simp_all
          have := ih (show findPhaseMatch pid tl = some (r.1, r.2.1, r.2.2) from by rw [hfm])
          simp [this]
    · rw [if_neg hp] at h
      cases hfm : findPhaseMatch pid tl with
      | none => rw [hfm] at h; exact absurd h (by simp)
      | some r =>
        rw [hfm] at h
        obtain ⟨rfl, rfl, rfl⟩ : pre = c :: r.1 ∧ m = r.2.1 ∧ post = r.2.2 := by
          refine ⟨?_, ?_, ?_⟩
          · injection h with h2; injection h2 <;> simp_all
          · injection h with h2; injection h2 with h3 h4; injection h4 <;> simp_all
          · injection h with h2; injection h2 with h3 h4; injection h4 <;> simp_all
        have := ih (show findPhaseMatch pid tl = some (r.1, r.2.1, r.2.2) from by rw [hfm])
        simp [this]

theorem subPhaseGo_none {pid repl d : Doc} (h : findPhaseMatch pid d = none) :
    ∀ fuel, subPhaseGo pid repl fuel d = d := by
  intro fuel
  cases fuel with
  | zero => rfl
  | succ f => simp [subPhaseGo, h]

theorem subPhase_unique {pid repl d pre m post : Doc}
    (h : findPhaseMatch pid d = some (pre, m, post))
    (hpost : findPhaseMatch pid post = none) :
    subPhase pid repl d = pre ++ repl ++ post := by
  rcases d with _ | ⟨c, tl⟩
  · exact absurd h (by simp [findPhaseMatch])
  · show subPhaseGo pid repl (c :: tl).length (c :: tl) = _
    simp only [List.length_cons, subPhaseGo, h]
    rw [subPhaseGo_none hpost]

end XcodeAdd

namespace XcodeAdd

theorem kBeginRef_ne_nil : kBeginRef ≠ [] := by decide

theorem kBeginBuild_ne_nil : kBeginBuild ≠ [] := by decide

theorem patchFileRefs_insert {nf : List NewFile} {content a m b p q : Doc}
    (hsec : findSection kBeginRef kEndRef content = some (a, m, b))
    (hsp : splitFirst (kBeginRef ++ m ++ kEndRef) content = some (p, q))
    (hq : occursIn (kBeginRef ++ m ++ kEndRef) q = false) :
    patchFileRefs nf content = p ++ kBeginRef ++ m ++ refBlock nf ++ kEndRef ++ q := by
  unfold patchFileRefs
  simp only [hsec]
  have hne : kBeginRef ++ m ++ kEndRef ≠ [] := by
    intro hcontra
    rcases List.append_eq_nil.mp hcontra with ⟨h1, _⟩
    rcases List.append_eq_nil.mp h1 with ⟨h2, _⟩
    exact absurd h2 kBeginRef_ne_nil
  rw [replaceAll_unique hne hsp hq]
  simp [List.append_assoc]

theorem patchBuildFiles_insert {nf : List NewFile} {content a m b p q : Doc}
    (hsec : findSection kBeginBuild kEndBuild content = some (a, m, b))
    (hsp : splitFirst (kBeginBuild ++ m ++ kEndBuild) content = some (p, q))
    (hq : occursIn (kBeginBuild ++ m ++ kEndBuild) q = false) :
    patchBuildFiles nf content = p ++ kBeginBuild ++ m ++ buildBlock nf ++ kEndBuild ++ q := by
  unfold patchBuildFiles
  simp only [hsec]
  have hne : kBeginBuild ++ m ++ kEndBuild ≠ [] := by
    intro hcontra
    rcases List.append_eq_nil.mp hcontra with ⟨h1, _⟩
    rcases List.append_eq_nil.mp h1 with ⟨h2, _⟩
    exact absurd h2 kBeginBuild_ne_nil
  rw [replaceAll_unique hne hsp hq]
  simp [List.append_assoc]

theorem patchSourcesPhase_insert {pid : Doc} {nf : List NewFile} {content pre m post : Doc}
    (h : findPhaseMatch pid content = some (pre, m, post))
    (hpost : findPhaseMatch pid post = none) :
    patchSourcesPhase pid nf content = pre ++ m ++ memBlock nf ++ post := by
  unfold patchSourcesPhase
  simp only [h]
  rw [subPhase_unique h hpost]
  simp [List.append_assoc]

theorem patchFileRefs_skip {nf : List NewFile} {content : Doc}
    (h : findSection kBeginRef kEndRef content = none) :
    patchFileRefs nf content = content := by
  unfold patchFileRefs
  simp only [h]

theorem patchBuildFiles_skip {nf : List NewFile} {content : Doc}
    (h : findSection kBeginBuild kEndBuild content = none) :
    patchBuildFiles nf content = content := by
  unfold patchBuildFiles
  simp only [h]

theorem patchSourcesPhase_skip {pid : Doc} {nf : List NewFile} {content : Doc}
    (h : findPhaseMatch pid content = none) :
    patchSourcesPhase pid nf content = content := by
  unfold patchSourcesPhase
  simp only [h]

theorem runScript_write {gen : Nat → Doc} {targets : List Doc} {content g pid : Doc}
    {nf : List NewFile} {skips : List Doc} {k : Nat}
    (hg : findMainGroup content = some g)
    (hp : findSourcesPhase content = some pid)
    (hc : collectNew gen content targets 0 [] = (nf, skips, k))
    (hne : nf ≠ []) :
    runScript gen targets (some content) =
      ⟨some (patchSourcesPhase pid nf (patchBuildFiles nf (patchFileRefs nf content))),
       skips ++ [msgAdded nf.length] ++ nf.map (fun e => msgAddedFile e.path)⟩ := by
  unfold runScript afterGroupGate
  simp only [hg, hp, hc]
  simp [hne]

theorem collectNew_all_present {gen : Nat → Doc} {content : Doc} :
    ∀ {ps : List Doc} (n : Nat) (acc : List NewFile),
      (∀ p ∈ ps, occursIn p content = true) →
      collectNew gen content ps n acc = (acc, ps.map msgAlready, n) := by
  intro ps
  induction ps with
  | nil => intro n acc _; rfl
  | cons p rest ih =>
    intro n acc h
    have hp := h p (by simp)
    simp only [collectNew, hp, if_true]
    rw [ih n acc (fun x hx => h x (by simp [hx]))]
    simp

theorem insertAt_append (P Q ins : Doc) :
    insertAt (P ++ Q) P.length ins = P ++ ins ++ Q := by
  simp [insertAt, List.take_left, List.drop_left]

end XcodeAdd

namespace XcodeAdd

theorem splitSep_ne_nil (sep : Char) : ∀ d : Doc, splitSep sep d ≠ [] := by
  intro d
  cases d with
  | nil => simp [splitSep]
  | cons c tl =>
    simp only [splitSep]
    split
    · simp
    · cases h : splitSep sep tl <;> simp

theorem splitSep_cons_sep (sep : Char) (tl : Doc) :
    splitSep sep (sep :: tl) = [] :: splitSep sep tl := by
  simp [splitSep]

theorem splitSep_cons_ne {sep c : Char} (h : ¬c = sep) (tl : Doc) :
    splitSep sep (c :: tl) = consHead [c] (splitSep sep tl) := by
  simp only [splitSep, if_neg h]
  cases hst : splitSep sep tl with
  | nil => exact absurd hst (splitSep_ne_nil sep tl)
  | cons hh tt => simp [consHead]

theorem splitSep_append (sep : Char) : ∀ a b : Doc,
    splitSep sep (a ++ b) =
      (splitSep sep a).dropLast ++ consHead ((splitSep sep a).getLastD []) (splitSep sep b) := by
  intro a
  induction a with
  | nil =>
    intro b
    cases h : splitSep sep b with
    | nil => exact absurd h (splitSep_ne_nil sep b)
    | cons hh tt => simp [splitSep, consHead, h]
  | cons c tl ih =>
    intro b
    rw [List.cons_append]
    by_cases hc : c = sep
    · subst hc
      rw [splitSep_cons_sep, splitSep_cons_sep, ih b]
      rcases hst : splitSep c tl with _ | ⟨hh, tt⟩
      · exact absurd hst (splitSep_ne_nil c tl)
      · simp [List.getLastD_cons]
    · rw [splitSep_cons_ne hc, splitSep_cons_ne hc, ih b]
      rcases hst : splitSep sep tl with _ | ⟨hh, tt⟩
      · exact absurd hst (splitSep_ne_nil sep tl)
      · rcases hsb : splitSep sep b with _ | ⟨bh, bt⟩
        · exact absurd hsb (splitSep_ne_nil sep b)
        · cases tt with
          | nil => simp [consHead]
          | cons t1 t2 => simp [consHead, List.getLastD_cons]

theorem splitSep_length (sep : Char) : ∀ d : Doc,
    (splitSep sep d).length = d.count sep + 1 := by
  intro d
  induction d with
  | nil => simp [splitSep, List.count_nil]
  | cons c tl ih =>
    by_cases hc : c = sep
    · subst hc
      simp [splitSep, ih, List.count_cons]
    · simp only [splitSep, if_neg hc]
      cases h : splitSep sep tl with
      | nil => exact absurd h (splitSep_ne_nil sep tl)
      | cons hh tt =>
        rw [h] at ih
        simp only [List.length_cons] at ih ⊢
        rw [List.count_cons]
        simp [ih, Ne.symm hc, hc]

theorem splitSep_take_of_count {sep : Char} {L X : Doc} {N : Nat}
    (h : L.count sep = N) :
    (splitSep sep (L ++ X)).take N = (splitSep sep L).take N := by
  rw [splitSep_append]
  have hlen : (splitSep sep L).dropLast.length = N := by
    rw [List.length_dropLast, splitSep_length, h]
    simp
  rw [List.take_left' hlen]
  rw [List.dropLast_eq_take, splitSep_length, h]
  simp

theorem collectNew_two_absent (gen : Nat → Doc) {content p1 p2 : Doc}
    (h1 : occursIn p1 content = false) (h2 : occursIn p2 content = false)
    (hne : p1 ≠ p2) :
    collectNew gen content [p1, p2] 0 [] =
      ([⟨p1, gen 0, gen 1⟩, ⟨p2, gen 2, gen 3⟩], [], 4) := by
  simp [collectNew, h1, h2, upsert, hne]

theorem collectNew_skip_then_add (gen : Nat → Doc) {content p1 p2 : Doc}
    (h1 : occursIn p1 content = true) (h2 : occursIn p2 content = false) :
    collectNew gen content [p1, p2] 0 [] = ([⟨p2, gen 0, gen 1⟩], [msgAlready p1], 2) := by
  simp [collectNew, h1, h2, upsert]

theorem collectNew_one_absent (gen : Nat → Doc) {content p : Doc}
    (h : occursIn p content = false) :
    collectNew gen content [p] 0 [] = ([⟨p, gen 0, gen 1⟩], [], 2) := by
  simp [collectNew, h, upsert]

end XcodeAdd

/-! ## Claim theorems -/

namespace XcodeAdd

/-- C4: for every input where the configuration file cannot be read, or
where the primary-group pattern or the sources-build-phase pattern does
not match the document, the operation reports the corresponding error and
terminates without writing the output file (`written = none`), leaving the
document unmodified. -/
theorem c4_abort_without_modification (gen : Nat → Doc) (targets : List Doc) (content : Doc) :
    runScript gen targets none = ⟨none, [msgErrNotFound]⟩ ∧
    (findMainGroup content = none →
      runScript gen targets (some content) = ⟨none, [msgErrGroup]⟩) ∧
    (findMainGroup content ≠ none → findSourcesPhase content = none →
      runScript gen targets (some content) = ⟨none, [msgErrPhase]⟩) := by
  refine ⟨rfl, ?_, ?_⟩
  · intro h
    simp [runScript, h]
  · intro h1 h2
    obtain ⟨g, hg⟩ := Option.ne_none_iff_exists'.mp h1
    simp [runScript, afterGroupGate, hg, h2]

/-- Witness for C4 at concrete inputs: a missing file, a document with no
main-group record, and a document whose group record exists but which has
no sources build phase. -/
theorem c4_abort_without_modification_witness :
    runScript genA [pNew] none = ⟨none, [msgErrNotFound]⟩ ∧
    runScript genA [pNew] (some docNoGroup) = ⟨none, [msgErrGroup]⟩ ∧
    runScript genA [pNew] (some docA) = ⟨none, [msgErrPhase]⟩ :=
  ⟨(c4_abort_without_modification genA [pNew] docNoGroup).1,
   (c4_abort_without_modification genA [pNew] docNoGroup).2.1 (by decide),
   (c4_abort_without_modification genA [pNew] docA).2.2 (by decide) (by decide)⟩

/-- C8: if every target path already occurs in the document (and both
mandatory gates pass, so that the candidate loop is reached), the queue is
empty, the run prints the per-file skip lines followed by the
nothing-to-do report, and no file is written. -/
theorem c8_nothing_to_do (gen : Nat → Doc) (targets : List Doc) (content g pid : Doc)
    (hg : findMainGroup content = some g)
    (hp : findSourcesPhase content = some pid)
    (hall : ∀ p ∈ targets, occursIn p content = true) :
    runScript gen targets (some content) =
      ⟨none, targets.map msgAlready ++ [msgAllExist]⟩ := by
  unfold runScript afterGroupGate
  simp only [hg, hp, collectNew_all_present 0 [] hall]
  simp

/-- Witness for C8: `doc0` already contains the text of `pOld`. -/
theorem c8_nothing_to_do_witness :
    runScript genA [pOld] (some doc0) =
      ⟨none, [pOld].map msgAlready ++ [msgAllExist]⟩ :=
  c8_nothing_to_do genA [pOld] doc0 (sDoc "GROUPIDAAAAAAAAAAAAAAAAA") docPid
    (by decide) (by decide) (by decide)

/-- C9 (implicit): whenever both mandatory gates pass and the queue is
non-empty, the file is rewritten (`written ≠ none`) and the run reports
`Added N files` with `N` the number of queued files — the statement has no
hypothesis about the three section patterns, so it holds equally in runs
where they fail to match and fewer fragments are inserted. -/
theorem c9_success_report_counts_queued (gen : Nat → Doc) (targets : List Doc)
    (content g pid : Doc) (nf : List NewFile) (skips : List Doc) (k : Nat)
    (hg : findMainGroup content = some g)
    (hp : findSourcesPhase content = some pid)
    (hc : collectNew gen content targets 0 [] = (nf, skips, k))
    (hne : nf ≠ []) :
    (runScript gen targets (some content)).written ≠ none ∧
    (runScript gen targets (some content)).output =
      skips ++ [msgAdded nf.length] ++ nf.map (fun e => msgAddedFile e.path) := by
  rw [runScript_write hg hp hc hne]
  exact ⟨by simp, rfl⟩

/-- Witness for C9 on a document whose PBXFileReference marker pair is
absent: the reference-insertion step can do nothing, yet the run still
writes the file and reports `Added 1 files`. -/
theorem c9_success_report_counts_queued_witness :
    (runScript genA [pNew] (some docNoRef)).written ≠ none ∧
    (runScript genA [pNew] (some docNoRef)).output =
      [] ++ [msgAdded ([⟨pNew, genA 0, genA 1⟩] : List NewFile).length] ++
        ([⟨pNew, genA 0, genA 1⟩] : List NewFile).map (fun e => msgAddedFile e.path) :=
  c9_success_report_counts_queued genA [pNew] docNoRef
    (sDoc "GROUPIDAAAAAAAAAAAAAAAAA") docPid [⟨pNew, genA 0, genA 1⟩] [] 2
    (by decide) (by decide) (by decide) (by decide)

/-- C2 counterexample: a run in which the phase files-list lookup fails
(`findPhaseMatch` returns `none` on the patched document) produces exactly
the same console output as the corresponding run in which it succeeds; the
only difference is the written document, which silently lacks the
membership line.  The skip is therefore not reported. -/
theorem c2_counterexample :
    (runScript genA [pNew] (some doc0)).output =
      (runScript genA [pNew] (some docBadPhase)).output ∧
    findPhaseMatch docPid
      (patchBuildFiles [⟨pNew, genA 0, genA 1⟩]
        (patchFileRefs [⟨pNew, genA 0, genA 1⟩] docBadPhase)) = none ∧
    (runScript genA [pNew] (some docBadPhase)).written ≠ none ∧
    occursIn (sourcesEntry pNew (genA 1))
      ((runScript genA [pNew] (some docBadPhase)).written.getD []) = false ∧
    occursIn (sourcesEntry pNew (genA 1))
      ((runScript genA [pNew] (some doc0)).written.getD []) = true := by
  decide

/-- C2 amended: when a section lookup fails during patching the insertion
step is skipped *silently* — the console output of a run is fully
determined by the gate results and the queueing pass, and carries no
indication of which section insertions happened. -/
theorem c2_amended_silent_skip (gen : Nat → Doc) (targets : List Doc)
    (c1 c2 g1 g2 q1 q2 : Doc)
    (h1 : findMainGroup c1 = some g1) (h2 : findMainGroup c2 = some g2)
    (h3 : findSourcesPhase c1 = some q1) (h4 : findSourcesPhase c2 = some q2)
    (h5 : collectNew gen c1 targets 0 [] = collectNew gen c2 targets 0 []) :
    (runScript gen targets (some c1)).output = (runScript gen targets (some c2)).output := by
  unfold runScript afterGroupGate
  simp only [h1, h2, h3, h4, h5]
  rcases hr : collectNew gen c2 targets 0 [] with ⟨nf, skips, k⟩
  by_cases hnf : nf = [] <;> simp [hnf]

/-- Witness for the amended C2: `doc0` (phase list present) and
`docBadPhase` (phase list absent) have identical console output. -/
theorem c2_amended_silent_skip_witness :
    (runScript genA [pNew] (some doc0)).output =
      (runScript genA [pNew] (some docBadPhase)).output :=
  c2_amended_silent_skip genA [pNew] doc0 docBadPhase
    (sDoc "GROUPIDAAAAAAAAAAAAAAAAA") (sDoc "GROUPIDAAAAAAAAAAAAAAAAA") docPid docPid
    (by decide) (by decide) (by decide) (by decide) (by decide)

/-- C10 counterexample: two documents that differ only in the 24
characters of the captured main-group identifier, yet produce different
per-file reports and different edits — because the identifier's bytes are
part of the text searched by the presence check, one document contains the
target path (completed by the identifier's `swift` prefix) and the other
does not. -/
theorem c10_counterexample :
    docTenA = docPreTen ++ idSwift ++ docPostTen ∧
    docTenB = docPreTen ++ idPlain ++ docPostTen ∧
    findMainGroup docTenA = some idSwift ∧
    findMainGroup docTenB = some idPlain ∧
    (runScript genA [pCoord] (some docTenA)).written = none ∧
    (runScript genA [pCoord] (some docTenB)).written ≠ none ∧
    (runScript genA [pCoord] (some docTenA)).output ≠
      (runScript genA [pCoord] (some docTenB)).output :=
  ⟨rfl, rfl, by decide, by decide, by decide, by decide, by decide⟩

/-- C10 amended: the captured identifier itself is never consumed — the
whole run factors through the mere success of the main-group match, the
continuation `afterGroupGate` not taking the identifier at all (and, per
the patch lemmas, no record is ever inserted into the group's children
list, only into the three located sections). -/
theorem c10_amended_gate_only (gen : Nat → Doc) (targets : List Doc) (content : Doc) :
    runScript gen targets (some content) =
      if (findMainGroup content).isSome then afterGroupGate gen targets content
      else ⟨none, [msgErrGroup]⟩ := by
  unfold runScript
  cases h : findMainGroup content <;> simp [h]

end XcodeAdd

namespace XcodeAdd

/-- C7: for a target list with one path whose text occurs in the document
and one absent path, identifiers are allocated only for the absent path
(the supply counter advances by exactly two), the present path is reported
as already existing and contributes nothing to the queue, and the patch is
applied with exactly the absent path's three fragments. -/
theorem c7_skip_correctness (gen : Nat → Doc) (content g pid p1 p2 : Doc)
    (hg : findMainGroup content = some g)
    (hp : findSourcesPhase content = some pid)
    (h1 : occursIn p1 content = true)
    (h2 : occursIn p2 content = false) :
    collectNew gen content [p1, p2] 0 [] = ([⟨p2, gen 0, gen 1⟩], [msgAlready p1], 2) ∧
    runScript gen [p1, p2] (some content) =
      ⟨some (patchSourcesPhase pid [⟨p2, gen 0, gen 1⟩]
              (patchBuildFiles [⟨p2, gen 0, gen 1⟩]
                (patchFileRefs [⟨p2, gen 0, gen 1⟩] content))),
       [msgAlready p1, msgAdded 1, msgAddedFile p2]⟩ ∧
    refBlock [⟨p2, gen 0, gen 1⟩] = fileRefEntry p2 (gen 0) ∧
    buildBlock [⟨p2, gen 0, gen 1⟩] = buildFileEntry p2 (gen 1) (gen 0) ∧
    memBlock [⟨p2, gen 0, gen 1⟩] = sourcesEntry p2 (gen 1) := by
  have hc := collectNew_skip_then_add gen h1 h2
  refine ⟨hc, ?_, by simp [refBlock], by simp [buildBlock], by simp [memBlock]⟩
  have hw := runScript_write hg hp hc (by simp)
  simpa using hw

end XcodeAdd

namespace XcodeAdd

/-- Witness for C7 on `doc0` with the present path `pOld` and the absent
path `pNew`. -/
theorem c7_skip_correctness_witness :
    collectNew genA doc0 [pOld, pNew] 0 [] =
      ([⟨pNew, genA 0, genA 1⟩], [msgAlready pOld], 2) ∧
    runScript genA [pOld, pNew] (some doc0) =
      ⟨some (patchSourcesPhase docPid [⟨pNew, genA 0, genA 1⟩]
              (patchBuildFiles [⟨pNew, genA 0, genA 1⟩]
                (patchFileRefs [⟨pNew, genA 0, genA 1⟩] doc0))),
       [msgAlready pOld, msgAdded 1, msgAddedFile pNew]⟩ ∧
    refBlock [⟨pNew, genA 0, genA 1⟩] = fileRefEntry pNew (genA 0) ∧
    buildBlock [⟨pNew, genA 0, genA 1⟩] = buildFileEntry pNew (genA 1) (genA 0) ∧
    memBlock [⟨pNew, genA 0, genA 1⟩] = sourcesEntry pNew (genA 1) :=
  c7_skip_correctness genA doc0 (sDoc "GROUPIDAAAAAAAAAAAAAAAAA") docPid pOld pNew
    (by decide) (by decide) (by decide) (by decide)

/-- C5 amended: under the spec's single-occurrence assumption (each
located section text occurs exactly once, expressed by the `splitFirst`
and `occursIn` hypotheses), the run rewrites the document to the input
with exactly three blocks inserted, each at the end of a located section's
interior — so every original byte, in particular every byte outside the
three sections, is preserved in order. -/
theorem c5_amended_frame (gen : Nat → Doc) (targets : List Doc)
    (content g pid : Doc) (nf : List NewFile) (skips : List Doc) (k : Nat)
    (a1 m1 b1 p1 q1 a2 m2 b2 p2 q2 pre3 m3 post3 : Doc)
    (hg : findMainGroup content = some g)
    (hp : findSourcesPhase content = some pid)
    (hc : collectNew gen content targets 0 [] = (nf, skips, k))
    (hne : nf ≠ [])
    (hsec1 : findSection kBeginRef kEndRef content = some (a1, m1, b1))
    (hsp1 : splitFirst (kBeginRef ++ m1 ++ kEndRef) content = some (p1, q1))
    (hu1 : occursIn (kBeginRef ++ m1 ++ kEndRef) q1 = false)
    (hsec2 : findSection kBeginBuild kEndBuild (patchFileRefs nf content) = some (a2, m2, b2))
    (hsp2 : splitFirst (kBeginBuild ++ m2 ++ kEndBuild) (patchFileRefs nf content) = some (p2, q2))
    (hu2 : occursIn (kBeginBuild ++ m2 ++ kEndBuild) q2 = false)
    (h3 : findPhaseMatch pid (patchBuildFiles nf (patchFileRefs nf content)) =
      some (pre3, m3, post3))
    (hpost3 : findPhaseMatch pid post3 = none) :
    (runScript gen targets (some content)).written =
      some (insertAt (insertAt (insertAt content
              ((p1 ++ kBeginRef ++ m1).length) (refBlock nf))
            ((p2 ++ kBeginBuild ++ m2).length) (buildBlock nf))
          ((pre3 ++ m3).length) (memBlock nf)) := by
  have h1i : patchFileRefs nf content =
      insertAt content ((p1 ++ kBeginRef ++ m1).length) (refBlock nf) := by
    have hs : content = (p1 ++ kBeginRef ++ m1) ++ (kEndRef ++ q1) := by
      rw [splitFirst_sound hsp1]
      simp [List.append_assoc]
    rw [patchFileRefs_insert hsec1 hsp1 hu1]
    conv_rhs => rw [hs]
    rw [insertAt_append]
    simp [List.append_assoc]
  have h2i : patchBuildFiles nf (patchFileRefs nf content) =
      insertAt (patchFileRefs nf content) ((p2 ++ kBeginBuild ++ m2).length) (buildBlock nf) := by
    have hs : patchFileRefs nf content = (p2 ++ kBeginBuild ++ m2) ++ (kEndBuild ++ q2) := by
      rw [splitFirst_sound hsp2]
      simp [List.append_assoc]
    rw [patchBuildFiles_insert hsec2 hsp2 hu2]
    conv_rhs => rw [hs]
    rw [insertAt_append]
    simp [List.append_assoc]
  have h3i : patchSourcesPhase pid nf (patchBuildFiles nf (patchFileRefs nf content)) =
      insertAt (patchBuildFiles nf (patchFileRefs nf content))
        ((pre3 ++ m3).length) (memBlock nf) := by
    have hs : patchBuildFiles nf (patchFileRefs nf content) = (pre3 ++ m3) ++ post3 := by
      rw [findPhaseMatch_sound h3]
    rw [patchSourcesPhase_insert h3 hpost3]
    conv_rhs => rw [hs]
    rw [insertAt_append]
  rw [runScript_write hg hp hc hne]
  show some (patchSourcesPhase pid nf (patchBuildFiles nf (patchFileRefs nf content))) = _
  rw [h3i, h2i, h1i]

end XcodeAdd

namespace XcodeAdd

/-- C5 counterexample: in a document where the PBXFileReference marker
pair (with identical interior) occurs twice, the run locates the *first*
pair as the targeted section, but `str.replace` rewrites every occurrence:
the new fragment appears twice in the output, so bytes inside the second
pair — outside the three located sections — are changed. -/
theorem c5_counterexample :
    findSection kBeginRef kEndRef docDup =
      some (docA, docMR,
        docC ++ kBeginRef ++ docMR ++ kEndRef ++ docE ++
        docPid ++ kEqBrace ++ docW ++ kFilesOpen ++ docL ++ docF) ∧
    (runScript genA [pNew] (some docDup)).written ≠ none ∧
    occCount (fileRefEntry pNew (genA 0))
      ((runScript genA [pNew] (some docDup)).written.getD []) = 2 := by
  decide

/-- C3 counterexample: on a document whose PBXFileReference marker pair is
absent (while the PBXBuildFile pair is present), the run still writes a
build-file record whose `fileRef` identifier exists nowhere else in the
output: the written document contains the build-file fragment, no
file-reference fragment for the identifier, and the identifier occurs
exactly once (inside the build-file fragment itself) — a dangling
reference, violating the claimed invariant/conservation. -/
theorem c3_counterexample :
    findSection kBeginRef kEndRef docNoRef = none ∧
    (runScript genA [pNew] (some docNoRef)).written ≠ none ∧
    occursIn (buildFileEntry pNew (genA 1) (genA 0))
      ((runScript genA [pNew] (some docNoRef)).written.getD []) = true ∧
    occursIn (fileRefEntry pNew (genA 0))
      ((runScript genA [pNew] (some docNoRef)).written.getD []) = false ∧
    occCount (genA 0) ((runScript genA [pNew] (some docNoRef)).written.getD []) = 1 := by
  decide

/-- C6: for a document whose (uniquely located, per the hypotheses) phase
membership list `L` holds `N` entries (`N` separating commas) and a run
that adds the two absent files `pA` then `pB`, the written document
extends `L` in place by exactly the two membership lines, appended after
the existing text in processing order: the new list region has `N + 2`
entries and its first `N` comma-separated chunks are unchanged. -/
theorem c6_ordering (gen : Nat → Doc) (content g pid pA pB : Doc) (N : Nat)
    (a1 m1 b1 p1 q1 a2 m2 b2 p2 q2 pre3 w L post3 : Doc)
    (hg : findMainGroup content = some g)
    (hp : findSourcesPhase content = some pid)
    (hA : occursIn pA content = false)
    (hB : occursIn pB content = false)
    (hAB : pA ≠ pB)
    (hsec1 : findSection kBeginRef kEndRef content = some (a1, m1, b1))
    (hsp1 : splitFirst (kBeginRef ++ m1 ++ kEndRef) content = some (p1, q1))
    (hu1 : occursIn (kBeginRef ++ m1 ++ kEndRef) q1 = false)
    (hsec2 : findSection kBeginBuild kEndBuild
      (patchFileRefs [⟨pA, gen 0, gen 1⟩, ⟨pB, gen 2, gen 3⟩] content) = some (a2, m2, b2))
    (hsp2 : splitFirst (kBeginBuild ++ m2 ++ kEndBuild)
      (patchFileRefs [⟨pA, gen 0, gen 1⟩, ⟨pB, gen 2, gen 3⟩] content) = some (p2, q2))
    (hu2 : occursIn (kBeginBuild ++ m2 ++ kEndBuild) q2 = false)
    (h3 : findPhaseMatch pid
      (patchBuildFiles [⟨pA, gen 0, gen 1⟩, ⟨pB, gen 2, gen 3⟩]
        (patchFileRefs [⟨pA, gen 0, gen 1⟩, ⟨pB, gen 2, gen 3⟩] content)) =
      some (pre3, pid ++ kEqBrace ++ w ++ kFilesOpen ++ L, post3))
    (hpost3 : findPhaseMatch pid post3 = none)
    (hN : L.count ',' = N)
    (hcA : (basename pA).count ',' = 0) (hcB : (basename pB).count ',' = 0)
    (hg1 : (gen 1).count ',' = 0) (hg3 : (gen 3).count ',' = 0) :
    (runScript gen [pA, pB] (some content)).written =
      some (pre3 ++ (pid ++ kEqBrace ++ w ++ kFilesOpen) ++
        (L ++ sourcesEntry pA (gen 1) ++ sourcesEntry pB (gen 3)) ++ post3) ∧
    (L ++ sourcesEntry pA (gen 1) ++ sourcesEntry pB (gen 3)).count ',' = N + 2 ∧
    (splitSep ',' (L ++ sourcesEntry pA (gen 1) ++ sourcesEntry pB (gen 3))).take N =
      (splitSep ',' L).take N ∧
    memBlock [⟨pA, gen 0, gen 1⟩, ⟨pB, gen 2, gen 3⟩] =
      sourcesEntry pA (gen 1) ++ sourcesEntry pB (gen 3) := by
  have hc := collectNew_two_absent gen hA hB hAB
  have hsA : (sourcesEntry pA (gen 1)).count ',' = 1 := by
    have l0 : (sDoc "\t\t\t\t").count ',' = 0 := by decide
    have l1 : (sDoc " /* ").count ',' = 0 := by decide
    have l2 : (sDoc " in Sources */,\n").count ',' = 1 := by decide
    unfold sourcesEntry
    rw [List.count_append, List.count_append, List.count_append, List.count_append,
      l0, l1, l2, hcA, hg1]
  have hsB : (sourcesEntry pB (gen 3)).count ',' = 1 := by
    have l0 : (sDoc "\t\t\t\t").count ',' = 0 := by decide
    have l1 : (sDoc " /* ").count ',' = 0 := by decide
    have l2 : (sDoc " in Sources */,\n").count ',' = 1 := by decide
    unfold sourcesEntry
    rw [List.count_append, List.count_append, List.count_append, List.count_append,
      l0, l1, l2, hcB, hg3]
  refine ⟨?_, ?_, ?_, by simp [memBlock]⟩
  · rw [runScript_write hg hp hc (by simp)]
    show some (patchSourcesPhase pid [⟨pA, gen 0, gen 1⟩, ⟨pB, gen 2, gen 3⟩]
      (patchBuildFiles [⟨pA, gen 0, gen 1⟩, ⟨pB, gen 2, gen 3⟩]
        (patchFileRefs [⟨pA, gen 0, gen 1⟩, ⟨pB, gen 2, gen 3⟩] content))) = _
    rw [patchSourcesPhase_insert h3 hpost3]
    simp [memBlock, sourcesEntry, List.append_assoc]
  · rw [List.count_append, List.count_append, hN, hsA, hsB]
  · have hassoc : L ++ sourcesEntry pA (gen 1) ++ sourcesEntry pB (gen 3) =
        L ++ (sourcesEntry pA (gen 1) ++ sourcesEntry pB (gen 3)) := by
      simp [List.append_assoc]
    rw [hassoc]
    exact splitSep_take_of_count hN

end XcodeAdd

namespace XcodeAdd

theorem fileRefEntry_ne_nil (p r : Doc) : fileRefEntry p r ≠ [] := by
  unfold fileRefEntry
  have h2 : sDoc "\t\t" = '\t' :: '\t' :: [] := rfl
  rw [h2]
  simp

theorem buildFileEntry_ne_nil (p b r : Doc) : buildFileEntry p b r ≠ [] := by
  unfold buildFileEntry
  have h2 : sDoc "\t\t" = '\t' :: '\t' :: [] := rfl
  rw [h2]
  simp

theorem sourcesEntry_ne_nil (p b : Doc) : sourcesEntry p b ≠ [] := by
  unfold sourcesEntry
  have h2 : sDoc "\t\t\t\t" = '\t' :: '\t' :: '\t' :: '\t' :: [] := rfl
  rw [h2]
  simp

/-- C3 amended: provided the two gates pass, the two target paths are
absent, the three section lookups succeed on a document of the canonical
layout (build-file section, then file-reference section, then the phase
record), each located section text occurs once, and each synthesized
fragment occurs only at its insertion point (the `uniquePlace`
hypotheses, which hold when the generated identifiers are fresh), the
output document contains, for each added file, *exactly one*
file-reference fragment, one build-file fragment and one membership
fragment; the build-file fragment of each file names as its `fileRef` the
very identifier of that file's reference fragment, and the membership
fragment names the build-file identifier. -/
theorem c3_amended_conservation (gen : Nat → Doc) (content g pid pA pB : Doc)
    (A MB C MR E W L F : Doc)
    (hg : findMainGroup content = some g)
    (hp : findSourcesPhase content = some pid)
    (hA : occursIn pA content = false)
    (hB : occursIn pB content = false)
    (hAB : pA ≠ pB)
    (hsec1 : findSection kBeginRef kEndRef content =
      some (A ++ kBeginBuild ++ MB ++ kEndBuild ++ C, MR,
        E ++ pid ++ kEqBrace ++ W ++ kFilesOpen ++ L ++ F))
    (hsp1 : splitFirst (kBeginRef ++ MR ++ kEndRef) content =
      some (A ++ kBeginBuild ++ MB ++ kEndBuild ++ C,
        E ++ pid ++ kEqBrace ++ W ++ kFilesOpen ++ L ++ F))
    (hu1 : occursIn (kBeginRef ++ MR ++ kEndRef)
      (E ++ pid ++ kEqBrace ++ W ++ kFilesOpen ++ L ++ F) = false)
    (hsec2 : findSection kBeginBuild kEndBuild (patchFileRefs [⟨pA, gen 0, gen 1⟩, ⟨pB, gen 2, gen 3⟩] content) =
      some (A, MB,
        C ++ kBeginRef ++ MR ++ refBlock [⟨pA, gen 0, gen 1⟩, ⟨pB, gen 2, gen 3⟩] ++ kEndRef ++
        E ++ pid ++ kEqBrace ++ W ++ kFilesOpen ++ L ++ F))
    (hsp2 : splitFirst (kBeginBuild ++ MB ++ kEndBuild) (patchFileRefs [⟨pA, gen 0, gen 1⟩, ⟨pB, gen 2, gen 3⟩] content) =
      some (A,
        C ++ kBeginRef ++ MR ++ refBlock [⟨pA, gen 0, gen 1⟩, ⟨pB, gen 2, gen 3⟩] ++ kEndRef ++
        E ++ pid ++ kEqBrace ++ W ++ kFilesOpen ++ L ++ F))
    (hu2 : occursIn (kBeginBuild ++ MB ++ kEndBuild)
      (C ++ kBeginRef ++ MR ++ refBlock [⟨pA, gen 0, gen 1⟩, ⟨pB, gen 2, gen 3⟩] ++ kEndRef ++
        E ++ pid ++ kEqBrace ++ W ++ kFilesOpen ++ L ++ F) = false)
    (h3 : findPhaseMatch pid (patchBuildFiles [⟨pA, gen 0, gen 1⟩, ⟨pB, gen 2, gen 3⟩] (patchFileRefs [⟨pA, gen 0, gen 1⟩, ⟨pB, gen 2, gen 3⟩] content)) =
      some (A ++ kBeginBuild ++ MB ++ buildBlock [⟨pA, gen 0, gen 1⟩, ⟨pB, gen 2, gen 3⟩] ++ kEndBuild ++ C ++
          kBeginRef ++ MR ++ refBlock [⟨pA, gen 0, gen 1⟩, ⟨pB, gen 2, gen 3⟩] ++ kEndRef ++ E,
        pid ++ kEqBrace ++ W ++ kFilesOpen ++ L, F))
    (hpost3 : findPhaseMatch pid F = none)
    (huBA : uniquePlace (buildFileEntry pA (gen 1) (gen 0))
      (A ++
        kBeginBuild ++
        MB)
      (buildFileEntry pB (gen 3) (gen 2) ++
        kEndBuild ++
        C ++
        kBeginRef ++
        MR ++
        fileRefEntry pA (gen 0) ++
        fileRefEntry pB (gen 2) ++
        kEndRef ++
        E ++
        pid ++
        kEqBrace ++
        W ++
        kFilesOpen ++
        L ++
        sourcesEntry pA (gen 1) ++
        sourcesEntry pB (gen 3) ++
        F))
    (huBB : uniquePlace (buildFileEntry pB (gen 3) (gen 2))
      (A ++
        kBeginBuild ++
        MB ++
        buildFileEntry pA (gen 1) (gen 0))
      (kEndBuild ++
        C ++
        kBeginRef ++
        MR ++
        fileRefEntry pA (gen 0) ++
        fileRefEntry pB (gen 2) ++
        kEndRef ++
        E ++
        pid ++
        kEqBrace ++
        W ++
        kFilesOpen ++
        L ++
        sourcesEntry pA (gen 1) ++
        sourcesEntry pB (gen 3) ++
        F))
    (huFA : uniquePlace (fileRefEntry pA (gen 0))
      (A ++
        kBeginBuild ++
        MB ++
        buildFileEntry pA (gen 1) (gen 0) ++
        buildFileEntry pB (gen 3) (gen 2) ++
        kEndBuild ++
        C ++
        kBeginRef ++
        MR)
      (fileRefEntry pB (gen 2) ++
        kEndRef ++
        E ++
        pid ++
        kEqBrace ++
        W ++
        kFilesOpen ++
        L ++
        sourcesEntry pA (gen 1) ++
        sourcesEntry pB (gen 3) ++
        F))
    (huFB : uniquePlace (fileRefEntry pB (gen 2))
      (A ++
        kBeginBuild ++
        MB ++
        buildFileEntry pA (gen 1) (gen 0) ++
        buildFileEntry pB (gen 3) (gen 2) ++
        kEndBuild ++
        C ++
        kBeginRef ++
        MR ++
        fileRefEntry pA (gen 0))
      (kEndRef ++
        E ++
        pid ++
        kEqBrace ++
        W ++
        kFilesOpen ++
        L ++
        sourcesEntry pA (gen 1) ++
        sourcesEntry pB (gen 3) ++
        F))
    (huSA : uniquePlace (sourcesEntry pA (gen 1))
      (A ++
        kBeginBuild ++
        MB ++
        buildFileEntry pA (gen 1) (gen 0) ++
        buildFileEntry pB (gen 3) (gen 2) ++
        kEndBuild ++
        C ++
        kBeginRef ++
        MR ++
        fileRefEntry pA (gen 0) ++
        fileRefEntry pB (gen 2) ++
        kEndRef ++
        E ++
        pid ++
        kEqBrace ++
        W ++
        kFilesOpen ++
        L)
      (sourcesEntry pB (gen 3) ++
        F))
    (huSB : uniquePlace (sourcesEntry pB (gen 3))
      (A ++
        kBeginBuild ++
        MB ++
        buildFileEntry pA (gen 1) (gen 0) ++
        buildFileEntry pB (gen 3) (gen 2) ++
        kEndBuild ++
        C ++
        kBeginRef ++
        MR ++
        fileRefEntry pA (gen 0) ++
        fileRefEntry pB (gen 2) ++
        kEndRef ++
        E ++
        pid ++
        kEqBrace ++
        W ++
        kFilesOpen ++
        L ++
        sourcesEntry pA (gen 1))
      (F)) :
    ∃ wdoc : Doc,
      (runScript gen [pA, pB] (some content)).written = some wdoc ∧
      wdoc = A ++ kBeginBuild ++ MB ++ buildBlock [⟨pA, gen 0, gen 1⟩, ⟨pB, gen 2, gen 3⟩] ++ kEndBuild ++ C ++
        kBeginRef ++ MR ++ refBlock [⟨pA, gen 0, gen 1⟩, ⟨pB, gen 2, gen 3⟩] ++ kEndRef ++ E ++
        pid ++ kEqBrace ++ W ++ kFilesOpen ++ L ++ memBlock [⟨pA, gen 0, gen 1⟩, ⟨pB, gen 2, gen 3⟩] ++ F ∧
      refBlock [⟨pA, gen 0, gen 1⟩, ⟨pB, gen 2, gen 3⟩] = fileRefEntry pA (gen 0) ++ fileRefEntry pB (gen 2) ∧
      buildBlock [⟨pA, gen 0, gen 1⟩, ⟨pB, gen 2, gen 3⟩] = buildFileEntry pA (gen 1) (gen 0) ++ buildFileEntry pB (gen 3) (gen 2) ∧
      memBlock [⟨pA, gen 0, gen 1⟩, ⟨pB, gen 2, gen 3⟩] = sourcesEntry pA (gen 1) ++ sourcesEntry pB (gen 3) ∧
      occCount (fileRefEntry pA (gen 0)) wdoc = 1 ∧
      occCount (fileRefEntry pB (gen 2)) wdoc = 1 ∧
      occCount (buildFileEntry pA (gen 1) (gen 0)) wdoc = 1 ∧
      occCount (buildFileEntry pB (gen 3) (gen 2)) wdoc = 1 ∧
      occCount (sourcesEntry pA (gen 1)) wdoc = 1 ∧
      occCount (sourcesEntry pB (gen 3)) wdoc = 1 := by
  have hc := collectNew_two_absent gen hA hB hAB
  refine ⟨A ++ kBeginBuild ++ MB ++ buildBlock [⟨pA, gen 0, gen 1⟩, ⟨pB, gen 2, gen 3⟩] ++ kEndBuild ++ C ++
        kBeginRef ++ MR ++ refBlock [⟨pA, gen 0, gen 1⟩, ⟨pB, gen 2, gen 3⟩] ++ kEndRef ++ E ++
        pid ++ kEqBrace ++ W ++ kFilesOpen ++ L ++ memBlock [⟨pA, gen 0, gen 1⟩, ⟨pB, gen 2, gen 3⟩] ++ F,
    ?_, rfl, by simp [refBlock], by simp [buildBlock], by simp [memBlock],
    ?_, ?_, ?_, ?_, ?_, ?_⟩
  · rw [runScript_write hg hp hc (by simp)]
    show some (patchSourcesPhase pid [⟨pA, gen 0, gen 1⟩, ⟨pB, gen 2, gen 3⟩]
      (patchBuildFiles [⟨pA, gen 0, gen 1⟩, ⟨pB, gen 2, gen 3⟩] (patchFileRefs [⟨pA, gen 0, gen 1⟩, ⟨pB, gen 2, gen 3⟩] content))) = _
    rw [patchSourcesPhase_insert h3 hpost3]
    simp [List.append_assoc]
  · have hshape : (A ++ kBeginBuild ++ MB ++ buildBlock [⟨pA, gen 0, gen 1⟩, ⟨pB, gen 2, gen 3⟩] ++ kEndBuild ++ C ++
        kBeginRef ++ MR ++ refBlock [⟨pA, gen 0, gen 1⟩, ⟨pB, gen 2, gen 3⟩] ++ kEndRef ++ E ++
        pid ++ kEqBrace ++ W ++ kFilesOpen ++ L ++ memBlock [⟨pA, gen 0, gen 1⟩, ⟨pB, gen 2, gen 3⟩] ++ F) =
        (A ++
        kBeginBuild ++
        MB ++
        buildFileEntry pA (gen 1) (gen 0) ++
        buildFileEntry pB (gen 3) (gen 2) ++
        kEndBuild ++
        C ++
        kBeginRef ++
        MR) ++ (fileRefEntry pA (gen 0)) ++ (fileRefEntry pB (gen 2) ++
        kEndRef ++
        E ++
        pid ++
        kEqBrace ++
        W ++
        kFilesOpen ++
        L ++
        sourcesEntry pA (gen 1) ++
        sourcesEntry pB (gen 3) ++
        F) := by
      simp [refBlock, buildBlock, memBlock, List.append_assoc]
    rw [hshape]
    exact occCount_one_of_uniquePlace (fileRefEntry_ne_nil _ _) huFA
  · have hshape : (A ++ kBeginBuild ++ MB ++ buildBlock [⟨pA, gen 0, gen 1⟩, ⟨pB, gen 2, gen 3⟩] ++ kEndBuild ++ C ++
        kBeginRef ++ MR ++ refBlock [⟨pA, gen 0, gen 1⟩, ⟨pB, gen 2, gen 3⟩] ++ kEndRef ++ E ++
        pid ++ kEqBrace ++ W ++ kFilesOpen ++ L ++ memBlock [⟨pA, gen 0, gen 1⟩, ⟨pB, gen 2, gen 3⟩] ++ F) =
        (A ++
        kBeginBuild ++
        MB ++
        buildFileEntry pA (gen 1) (gen 0) ++
        buildFileEntry pB (gen 3) (gen 2) ++
        kEndBuild ++
        C ++
        kBeginRef ++
        MR ++
        fileRefEntry pA (gen 0)) ++ (fileRefEntry pB (gen 2)) ++ (kEndRef ++
        E ++
        pid ++
        kEqBrace ++
        W ++
        kFilesOpen ++
        L ++
        sourcesEntry pA (gen 1) ++
        sourcesEntry pB (gen 3) ++
        F) := by
      simp [refBlock, buildBlock, memBlock, List.append_assoc]
    rw [hshape]
    exact occCount_one_of_uniquePlace (fileRefEntry_ne_nil _ _) huFB
  · have hshape : (A ++ kBeginBuild ++ MB ++ buildBlock [⟨pA, gen 0, gen 1⟩, ⟨pB, gen 2, gen 3⟩] ++ kEndBuild ++ C ++
        kBeginRef ++ MR ++ refBlock [⟨pA, gen 0, gen 1⟩, ⟨pB, gen 2, gen 3⟩] ++ kEndRef ++ E ++
        pid ++ kEqBrace ++ W ++ kFilesOpen ++ L ++ memBlock [⟨pA, gen 0, gen 1⟩, ⟨pB, gen 2, gen 3⟩] ++ F) =
        (A ++
        kBeginBuild ++
        MB) ++ (buildFileEntry pA (gen 1) (gen 0)) ++ (buildFileEntry pB (gen 3) (gen 2) ++
        kEndBuild ++
        C ++
        kBeginRef ++
        MR ++
        fileRefEntry pA (gen 0) ++
        fileRefEntry pB (gen 2) ++
        kEndRef ++
        E ++
        pid ++
        kEqBrace ++
        W ++
        kFilesOpen ++
        L ++
        sourcesEntry pA (gen 1) ++
        sourcesEntry pB (gen 3) ++
        F) := by
      simp [refBlock, buildBlock, memBlock, List.append_assoc]
    rw [hshape]
    exact occCount_one_of_uniquePlace (buildFileEntry_ne_nil _ _ _) huBA
  · have hshape : (A ++ kBeginBuild ++ MB ++ buildBlock [⟨pA, gen 0, gen 1⟩, ⟨pB, gen 2, gen 3⟩] ++ kEndBuild ++ C ++
        kBeginRef ++ MR ++ refBlock [⟨pA, gen 0, gen 1⟩, ⟨pB, gen 2, gen 3⟩] ++ kEndRef ++ E ++
        pid ++ kEqBrace ++ W ++ kFilesOpen ++ L ++ memBlock [⟨pA, gen 0, gen 1⟩, ⟨pB, gen 2, gen 3⟩] ++ F) =
        (A ++
        kBeginBuild ++
        MB ++
        buildFileEntry pA (gen 1) (gen 0)) ++ (buildFileEntry pB (gen 3) (gen 2)) ++ (kEndBuild ++
        C ++
        kBeginRef ++
        MR ++
        fileRefEntry pA (gen 0) ++
        fileRefEntry pB (gen 2) ++
        kEndRef ++
        E ++
        pid ++
        kEqBrace ++
        W ++
        kFilesOpen ++
        L ++
        sourcesEntry pA (gen 1) ++
        sourcesEntry pB (gen 3) ++
        F) := by
      simp [refBlock, buildBlock, memBlock, List.append_assoc]
    rw [hshape]
    exact occCount_one_of_uniquePlace (buildFileEntry_ne_nil _ _ _) huBB
  · have hshape : (A ++ kBeginBuild ++ MB ++ buildBlock [⟨pA, gen 0, gen 1⟩, ⟨pB, gen 2, gen 3⟩] ++ kEndBuild ++ C ++
        kBeginRef ++ MR ++ refBlock [⟨pA, gen 0, gen 1⟩, ⟨pB, gen 2, gen 3⟩] ++ kEndRef ++ E ++
        pid ++ kEqBrace ++ W ++ kFilesOpen ++ L ++ memBlock [⟨pA, gen 0, gen 1⟩, ⟨pB, gen 2, gen 3⟩] ++ F) =
        (A ++
        kBeginBuild ++
        MB ++
        buildFileEntry pA (gen 1) (gen 0) ++
        buildFileEntry pB (gen 3) (gen 2) ++
        kEndBuild ++
        C ++
        kBeginRef ++
        MR ++
        fileRefEntry pA (gen 0) ++
        fileRefEntry pB (gen 2) ++
        kEndRef ++
        E ++
        pid ++
        kEqBrace ++
        W ++
        kFilesOpen ++
        L) ++ (sourcesEntry pA (gen 1)) ++ (sourcesEntry pB (gen 3) ++
        F) := by
      simp [refBlock, buildBlock, memBlock, List.append_assoc]
    rw [hshape]
    exact occCount_one_of_uniquePlace (sourcesEntry_ne_nil _ _) huSA
  · have hshape : (A ++ kBeginBuild ++ MB ++ buildBlock [⟨pA, gen 0, gen 1⟩, ⟨pB, gen 2, gen 3⟩] ++ kEndBuild ++ C ++
        kBeginRef ++ MR ++ refBlock [⟨pA, gen 0, gen 1⟩, ⟨pB, gen 2, gen 3⟩] ++ kEndRef ++ E ++
        pid ++ kEqBrace ++ W ++ kFilesOpen ++ L ++ memBlock [⟨pA, gen 0, gen 1⟩, ⟨pB, gen 2, gen 3⟩] ++ F) =
        (A ++
        kBeginBuild ++
        MB ++
        buildFileEntry pA (gen 1) (gen 0) ++
        buildFileEntry pB (gen 3) (gen 2) ++
        kEndBuild ++
        C ++
        kBeginRef ++
        MR ++
        fileRefEntry pA (gen 0) ++
        fileRefEntry pB (gen 2) ++
        kEndRef ++
        E ++
        pid ++
        kEqBrace ++
        W ++
        kFilesOpen ++
        L ++
        sourcesEntry pA (gen 1)) ++ (sourcesEntry pB (gen 3)) ++ (F) := by
      simp [refBlock, buildBlock, memBlock, List.append_assoc]
    rw [hshape]
    exact occCount_one_of_uniquePlace (sourcesEntry_ne_nil _ _) huSB

end XcodeAdd

namespace XcodeAdd

/-- Witness for the amended C5 on `doc0` with the single absent target
`pNew`: the written document is `doc0` with the three blocks inserted at
the ends of the three located section interiors. -/
theorem c5_amended_frame_witness :
    (runScript genA [pNew] (some doc0)).written =
      some (insertAt (insertAt (insertAt doc0
              ((wA1 ++ kBeginRef ++ docMR).length) (refBlock nfW1))
            ((docA ++ kBeginBuild ++ docMB).length) (buildBlock nfW1))
          ((wPre3 ++ wM3).length) (memBlock nfW1)) :=
  c5_amended_frame genA [pNew] doc0 (sDoc "GROUPIDAAAAAAAAAAAAAAAAA") docPid nfW1 [] 2
    wA1 docMR wB1 wA1 wB1
    docA docMB (docC ++ kBeginRef ++ docMR ++ refBlock nfW1 ++ kEndRef ++ wB1)
    docA (docC ++ kBeginRef ++ docMR ++ refBlock nfW1 ++ kEndRef ++ wB1)
    wPre3 wM3 docF
    (by decide) (by decide) (by decide) (by decide) (by decide) (by decide) (by decide)
    (by decide) (by decide) (by decide) (by decide) (by decide)

/-- Witness for C6 on `doc0` (its phase list holds one entry) adding
`pNew` then `pNew2`. -/
theorem c6_ordering_witness :
    (runScript genA [pNew, pNew2] (some doc0)).written =
      some (wPre3b ++ (docPid ++ kEqBrace ++ docW ++ kFilesOpen) ++
        (docL ++ sourcesEntry pNew (genA 1) ++ sourcesEntry pNew2 (genA 3)) ++ docF) ∧
    (docL ++ sourcesEntry pNew (genA 1) ++ sourcesEntry pNew2 (genA 3)).count ',' = 1 + 2 ∧
    (splitSep ',' (docL ++ sourcesEntry pNew (genA 1) ++ sourcesEntry pNew2 (genA 3))).take 1 =
      (splitSep ',' docL).take 1 ∧
    memBlock [⟨pNew, genA 0, genA 1⟩, ⟨pNew2, genA 2, genA 3⟩] =
      sourcesEntry pNew (genA 1) ++ sourcesEntry pNew2 (genA 3) :=
  c6_ordering genA doc0 (sDoc "GROUPIDAAAAAAAAAAAAAAAAA") docPid pNew pNew2 1
    wA1 docMR wB1 wA1 wB1
    docA docMB (docC ++ kBeginRef ++ docMR ++ refBlock nfW2 ++ kEndRef ++ wB1)
    docA (docC ++ kBeginRef ++ docMR ++ refBlock nfW2 ++ kEndRef ++ wB1)
    wPre3b docW docL docF
    (by decide) (by decide) (by decide) (by decide) (by decide) (by decide) (by decide)
    (by decide) (by decide) (by decide) (by decide) (by decide) (by decide) (by decide)
    (by decide) (by decide) (by decide) (by decide)

/-- Witness for the amended C3 on `doc0` with the absent targets `pNew`
and `pNew2` and the supply `genA` (whose identifiers are fresh for
`doc0`). -/
theorem c3_amended_conservation_witness :
    ∃ wdoc : Doc,
      (runScript genA [pNew, pNew2] (some doc0)).written = some wdoc ∧
      wdoc = docA ++ kBeginBuild ++ docMB ++ buildBlock [⟨pNew, genA 0, genA 1⟩, ⟨pNew2, genA 2, genA 3⟩] ++ kEndBuild ++ docC ++
        kBeginRef ++ docMR ++ refBlock [⟨pNew, genA 0, genA 1⟩, ⟨pNew2, genA 2, genA 3⟩] ++ kEndRef ++ docE ++
        docPid ++ kEqBrace ++ docW ++ kFilesOpen ++ docL ++ memBlock [⟨pNew, genA 0, genA 1⟩, ⟨pNew2, genA 2, genA 3⟩] ++ docF ∧
      refBlock [⟨pNew, genA 0, genA 1⟩, ⟨pNew2, genA 2, genA 3⟩] = fileRefEntry pNew (genA 0) ++ fileRefEntry pNew2 (genA 2) ∧
      buildBlock [⟨pNew, genA 0, genA 1⟩, ⟨pNew2, genA 2, genA 3⟩] = buildFileEntry pNew (genA 1) (genA 0) ++ buildFileEntry pNew2 (genA 3) (genA 2) ∧
      memBlock [⟨pNew, genA 0, genA 1⟩, ⟨pNew2, genA 2, genA 3⟩] = sourcesEntry pNew (genA 1) ++ sourcesEntry pNew2 (genA 3) ∧
      occCount (fileRefEntry pNew (genA 0)) wdoc = 1 ∧
      occCount (fileRefEntry pNew2 (genA 2)) wdoc = 1 ∧
      occCount (buildFileEntry pNew (genA 1) (genA 0)) wdoc = 1 ∧
      occCount (buildFileEntry pNew2 (genA 3) (genA 2)) wdoc = 1 ∧
      occCount (sourcesEntry pNew (genA 1)) wdoc = 1 ∧
      occCount (sourcesEntry pNew2 (genA 3)) wdoc = 1 :=
  c3_amended_conservation genA doc0 (sDoc "GROUPIDAAAAAAAAAAAAAAAAA") docPid pNew pNew2
    docA docMB docC docMR docE docW docL docF
    (by decide) (by decide) (by decide) (by decide) (by decide) (by decide) (by decide)
    (by decide) (by decide) (by decide) (by decide) (by decide) (by decide)
    (by decide) (by decide) (by decide) (by decide) (by decide) (by decide)

end XcodeAdd

namespace XcodeAdd

/-- C1 (code bug): idempotence fails.  `pCoord` is one of the script's
fixed target paths.  A first run on `doc0` adds it and writes `doc1`; but
the inserted fragments contain only the basename `AppCoordinator.swift`,
never the full relative path checked by `if file_path in content`
(line 68), so the path is still absent from `doc1` and a second run adds
the same file again instead of adding zero files, changing the
document. -/
theorem c1_idempotence_code_bug :
    pCoord ∈ files_to_add ∧
    (runScript genA [pCoord] (some doc0)).written = some doc1 ∧
    (runScript genA [pCoord] (some doc0)).output.head? = some (msgAdded 1) ∧
    occursIn (basename pCoord) doc1 = true ∧
    occursIn pCoord doc1 = false ∧
    (runScript genB [pCoord] (some doc1)).output.head? = some (msgAdded 1) ∧
    (runScript genB [pCoord] (some doc1)).written ≠ some doc1 := by
  decide

end XcodeAdd
